import Mathlib

set_option maxRecDepth 100000

/-!
Shallow embedding of the `tee-resource-lock` core (src/shared/crypto.ts and
src/enclave/ccm.ts) and proofs about the claims of its specification.

Representation conventions:
* Hex strings (`0x…` in the source) are represented as `List Char` of their
  hex digits, with the `0x` prefix stripped; every `.slice(2)` of the source
  is the identity here and every `'0x' + …` prefixing is dropped.
  An `Address` is 40 digits, a `Hash`/`Bytes32` 64 digits, a `Signature` 130.
* `bigint` / `number` values become `Nat` (all reachable values are
  non-negative Unix seconds, chain ids, amounts and nonces).
* The external cryptographic library functions (`keccak_256`,
  `secp256k1.sign`, recovery) are not part of this repository; they enter the
  model as the abstract function bundle `ExtCrypto`.
* The imperative `Map` fields of `EnclaveState` become insertion-ordered
  association lists (`alook` / `aset` mirror `Map.get` / `Map.set`).
* The ambient clock (`getSecureTime`) and the wall-clock date used as the
  daily-volume key (`new Date().toISOString().split('T')[0]`) are passed to
  each operation as explicit `now : Nat` and `today : String` arguments.
-/

/-- Hex digits of a natural number, lowercase, most significant first;
mirrors JavaScript `BigInt(value).toString(16)` (so `natToHex 0 = "0"`). -/
def natToHex (n : Nat) : List Char := Nat.toDigits 16 n

/-- JavaScript `String.prototype.padStart(n, c)`. -/
def padStartH (n : Nat) (c : Char) (s : List Char) : List Char :=
  List.replicate (n - s.length) c ++ s

/-- JavaScript `String.prototype.padEnd(n, c)`. -/
def padEndH (n : Nat) (c : Char) (s : List Char) : List Char :=
  s ++ List.replicate (n - s.length) c

/-- JavaScript `String.prototype.toLowerCase()` on a hex string. -/
def hexToLower (s : List Char) : List Char := s.map Char.toLower

/-- The 32 zero bytes as hex digits; the source's `'0x' + '0'.repeat(64)`. -/
def zeroHash : List Char := List.replicate 64 '0'

/-- The zero address `0x0000000000000000000000000000000000000000`. -/
def zeroAddress : List Char := List.replicate 40 '0'

/-- One byte as two lowercase hex digits (as `@noble/hashes` `bytesToHex`). -/
def byteToHex (n : Nat) : List Char :=
  [Nat.digitChar (n / 16 % 16), Nat.digitChar (n % 16)]

/-- The UTF-8 bytes of a string as hex digits.  All strings the core hashes
with `keccak256String` are ASCII, so each character is one byte. -/
def utf8Hex (s : String) : List Char :=
  (s.data.map fun c => byteToHex c.toNat).flatten

/-- A dynamically-typed value passed to the source's `abiEncode`: a `0x` hex
string, a `number`/`bigint`, a `boolean`, or a plain (non-hex) string such as
`'CANCEL'`. -/
inductive AbiVal where
  | hexv (s : List Char)
  | natv (n : Nat)
  | boolv (b : Bool)
  | strv (s : String)
deriving DecidableEq, Repr

/-- One `(type, value)` item of the source's `abiEncode` loop.  The source
dispatches on the type string and appends nothing when no branch matches —
in particular `uint8`, `string` and `bytes4` items contribute no output. -/
def abiEncodeItem : String → AbiVal → List Char
  | "address", .hexv a => padStartH 64 '0' (hexToLower a)
  | "uint256", .natv n => padStartH 64 '0' (natToHex n)
  | "int256", .natv n => padStartH 64 '0' (natToHex n)
  | "bytes32", .hexv h => padStartH 64 '0' h
  | "bool", .boolv b =>
      if b then List.replicate 63 '0' ++ ['1'] else List.replicate 64 '0'
  | "bytes", .hexv d =>
      padStartH 64 '0' (natToHex (d.length / 2)) ++
        padEndH ((d.length + 63) / 64 * 64) '0' d
  | _, _ => []

/-- The source's `abiEncode(types, values)`: the items are zipped here since
every call site passes equal-length literal arrays. -/
def abiEncode (items : List (String × AbiVal)) : List Char :=
  (items.map fun p => abiEncodeItem p.1 p.2).flatten

/-- The source's `encodePacked`, restricted to the reachable case of `0x` hex
string arguments (the Merkle combiner is its only caller): plain
concatenation of the digit lists. -/
def encodePacked (values : List (List Char)) : List Char := values.flatten

/-- Insertion-ordered association-list read; mirrors JavaScript `Map.get`
(`none` for a missing key). -/
def alook [DecidableEq K] : List (K × V) → K → Option V
  | [], _ => none
  | (k', v) :: rest, k => if k' = k then some v else alook rest k

/-- Insertion-ordered association-list write; mirrors JavaScript `Map.set`
(update in place when the key is present, append otherwise). -/
def aset [DecidableEq K] : List (K × V) → K → V → List (K × V)
  | [], k, v => [(k, v)]
  | (k', v') :: rest, k, v =>
      if k' = k then (k, v) :: rest else (k', v') :: aset rest k v

/-- The four asset kinds of `AssetIdentifier.assetType`. -/
inductive AssetType where
  | native
  | erc20
  | erc721
  | erc1155
deriving DecidableEq, Repr

/-- Model of `AssetIdentifier` of `src/shared/types.ts`. -/
structure AssetIdentifier where
  chainId : Nat
  assetType : AssetType
  contractAddress : Option (List Char) := none
  tokenId : Option Nat := none
deriving DecidableEq, Repr

/-- The kind number used by `hashAsset`'s nested conditional
(`native→0, erc20→1, erc721→2, otherwise 3`). -/
def assetKindNum : AssetType → Nat
  | .native => 0
  | .erc20 => 1
  | .erc721 => 2
  | .erc1155 => 3

/-- The bytes `hashAsset` feeds to keccak: `abiEncode` of
`(uint256 chainId, uint8 kind, address contract-or-zero, uint256 tokenId-or-0)`. -/
def hashAssetPre (a : AssetIdentifier) : List Char :=
  abiEncode
    [("uint256", .natv a.chainId),
     ("uint8", .natv (assetKindNum a.assetType)),
     ("address", .hexv (a.contractAddress.getD zeroAddress)),
     ("uint256", .natv (a.tokenId.getD 0))]

/-- Model of `FulfillmentCondition` of `src/shared/types.ts`. -/
structure FulfillmentCondition where
  targetChainId : Nat
  targetAsset : AssetIdentifier
  targetAmount : Nat
  recipient : List Char
  executionData : Option (List Char) := none
deriving DecidableEq, Repr

/-- The bundle of external cryptographic primitives the core imports from
`@noble/hashes` / `@noble/curves` (not code of this repository): keccak-256
over hex input, ECDSA address recovery `(messageHash, signature) → address`,
and ECDSA signing `(messageHash, privateKey) → signature`. -/
structure ExtCrypto where
  keccak : List Char → List Char
  recover : List Char → List Char → List Char
  ecsign : List Char → List Char → List Char

/-- Model of `hashAsset` of `src/shared/crypto.ts`. -/
def hashAsset (keccak : List Char → List Char) (a : AssetIdentifier) :
    List Char :=
  keccak (hashAssetPre a)

/-- Model of `hashFulfillmentCondition` of `src/shared/crypto.ts`. -/
def hashFulfillmentCondition (keccak : List Char → List Char)
    (c : FulfillmentCondition) : List Char :=
  keccak (abiEncode
    [("uint256", .natv c.targetChainId),
     ("bytes32", .hexv (hashAsset keccak c.targetAsset)),
     ("uint256", .natv c.targetAmount),
     ("address", .hexv c.recipient),
     ("bytes32", .hexv (match c.executionData with
        | some d => keccak d
        | none => zeroHash))])

/-- Model of `generateLockId` of `src/shared/crypto.ts`. -/
def generateLockId (keccak : List Char → List Char) (owner : List Char)
    (asset : AssetIdentifier) (amount nonce timestamp : Nat) : List Char :=
  keccak (abiEncode
    [("address", .hexv owner),
     ("bytes32", .hexv (hashAsset keccak asset)),
     ("uint256", .natv amount),
     ("uint256", .natv nonce),
     ("uint256", .natv timestamp)])

/-- Model of `EIP712Domain` of `src/shared/types.ts`. -/
structure EIP712Domain where
  name : String
  version : String
  chainId : Nat
  verifyingContract : List Char
deriving DecidableEq, Repr

/-- Model of `LockApprovalMessage` of `src/shared/types.ts`. -/
structure LockApprovalMessage where
  lockId : List Char
  owner : List Char
  asset : List Char
  amount : Nat
  nonce : Nat
  expiresAt : Nat
  fulfillmentHash : List Char
deriving DecidableEq, Repr

/-- Model of `keccak256String` of the source: keccak over the UTF-8 bytes. -/
def keccak256String (keccak : List Char → List Char) (s : String) :
    List Char :=
  keccak (utf8Hex s)

/-- The `EIP712Domain(...)` type-hash pre-image string. -/
def eip712DomainTypeString : String :=
  "EIP712Domain(string name,string version,uint256 chainId,address verifyingContract)"

/-- Model of `hashDomain` of `src/shared/crypto.ts`. -/
def hashDomain (keccak : List Char → List Char) (d : EIP712Domain) :
    List Char :=
  keccak (abiEncode
    [("bytes32", .hexv (keccak256String keccak eip712DomainTypeString)),
     ("bytes32", .hexv (keccak256String keccak d.name)),
     ("bytes32", .hexv (keccak256String keccak d.version)),
     ("uint256", .natv d.chainId),
     ("address", .hexv d.verifyingContract)])

/-- The fields of `LOCK_APPROVAL_TYPES.LockApproval` as `(name, type)`. -/
def lockApprovalFields : List (String × String) :=
  [("lockId", "bytes32"), ("owner", "address"), ("asset", "bytes32"),
   ("amount", "uint256"), ("nonce", "uint256"), ("expiresAt", "uint256"),
   ("fulfillmentHash", "bytes32")]

/-- Model of `hashType('LockApproval', LOCK_APPROVAL_TYPES)`: the type string is
`LockApproval(` + comma-joined `type name` pairs + `)`. -/
def lockApprovalTypeHash (keccak : List Char → List Char) : List Char :=
  keccak256String keccak
    ("LockApproval(" ++
      String.intercalate ","
        (lockApprovalFields.map fun f => f.2 ++ " " ++ f.1) ++ ")")

/-- Model of `hashLockApproval` of `src/shared/crypto.ts`. -/
def hashLockApproval (keccak : List Char → List Char)
    (m : LockApprovalMessage) : List Char :=
  keccak (abiEncode
    [("bytes32", .hexv (lockApprovalTypeHash keccak)),
     ("bytes32", .hexv m.lockId),
     ("address", .hexv m.owner),
     ("bytes32", .hexv m.asset),
     ("uint256", .natv m.amount),
     ("uint256", .natv m.nonce),
     ("uint256", .natv m.expiresAt),
     ("bytes32", .hexv m.fulfillmentHash)])

/-- Model of `hashTypedData` of `src/shared/crypto.ts`: keccak over the 66 bytes
`0x19 0x01 ‖ domainSeparator ‖ structHash`. -/
def hashTypedData (keccak : List Char → List Char) (d : EIP712Domain)
    (m : LockApprovalMessage) : List Char :=
  keccak ("1901".toList ++ hashDomain keccak d ++ hashLockApproval keccak m)

/-- JavaScript `<` on two (equal-alphabet) strings: lexicographic comparison
by character code. -/
def hexLt : List Char → List Char → Bool
  | [], [] => false
  | [], _ :: _ => true
  | _ :: _, [] => false
  | a :: as, b :: bs => if a < b then true else if b < a then false else hexLt as bs

/-- The sort-then-concat step shared by `buildTree` and `verifyProof`:
`left < right ? [left, right] : [right, left]`, then `encodePacked`. -/
def sortPairConcat (l r : List Char) : List Char :=
  if hexLt l r then encodePacked [l, r] else encodePacked [r, l]

/-- The Merkle node combiner `keccak(min(a,b) ‖ max(a,b))`. -/
def merkleCombine (keccak : List Char → List Char) (l r : List Char) :
    List Char :=
  keccak (sortPairConcat l r)

/-- One pass of `buildTree`'s inner loop: combine pairs left to right, the
last node of an odd row being combined with itself
(`currentLayer[i + 1] || left`). -/
def pairUp (keccak : List Char → List Char) : List (List Char) → List (List Char)
  | [] => []
  | [a] => [merkleCombine keccak a a]
  | a :: b :: rest => merkleCombine keccak a b :: pairUp keccak rest

/-- Model of `buildTree`'s outer loop with explicit fuel: keep pairing up and
collecting layers while the current layer has more than one node.  Each pass
shrinks a layer of length ≥ 2 strictly, so any fuel ≥ the starting length
runs the loop to completion. -/
def buildLayersGo (keccak : List Char → List Char) :
    Nat → List (List Char) → List (List (List Char))
  | 0, layer => [layer]
  | fuel + 1, layer =>
      if layer.length ≤ 1 then [layer]
      else layer :: buildLayersGo keccak fuel (pairUp keccak layer)

/-- Model of `buildTree`'s outer loop, starting from a given bottom layer: the list
of layers, repeatedly pairing up until a layer of length ≤ 1 is reached. -/
def buildLayersFrom (keccak : List Char → List Char)
    (layer : List (List Char)) : List (List (List Char)) :=
  buildLayersGo keccak layer.length layer

/-- The source's `this.layers`: empty when there are no leaves (the
constructor and `removeLeaf` reset it and `buildTree` is never called on an
empty leaf set), otherwise the layers from the leaves up to the root. -/
def layersOf (keccak : List Char → List Char) (leaves : List (List Char)) :
    List (List (List Char)) :=
  if leaves.isEmpty then [] else buildLayersFrom keccak leaves

/-- Model of `MerkleTree.getRoot`: 32 zero bytes for the empty tree, otherwise the
single node of the top layer. -/
def getRoot (keccak : List Char → List Char) (leaves : List (List Char)) :
    List Char :=
  let layers := layersOf keccak leaves
  if layers.isEmpty then zeroHash
  else (layers.getLastD []).headD zeroHash

/-- Model of `MerkleTree.getProof`'s loop over all layers below the top: push the
sibling when it exists in the layer (the duplicated last node of an odd row
has no stored sibling and contributes nothing), then halve the index. -/
def getProofAux : List (List (List Char)) → Nat → List (List Char)
  | [], _ => []
  | [_], _ => []
  | layer :: rest, idx =>
      let sIdx := if idx % 2 == 0 then idx + 1 else idx - 1
      (if sIdx < layer.length then [layer.getD sIdx []] else []) ++
        getProofAux rest (idx / 2)

/-- Model of `MerkleTree.getProof(index)`. -/
def getProof (keccak : List Char → List Char) (leaves : List (List Char))
    (index : Nat) : List (List Char) :=
  getProofAux (layersOf keccak leaves) index

/-- Model of `MerkleTree.verifyProof(leaf, proof, root)`. -/
def verifyProof (keccak : List Char → List Char) (leaf : List Char)
    (proof : List (List Char)) (root : List Char) : Bool :=
  proof.foldl (fun acc p => merkleCombine keccak acc p) leaf = root

/-- Model of `MerkleTree.removeLeaf(leaf)`: drop the first occurrence; the `Bool`
reports whether anything was removed (`indexOf === -1` means `false`). -/
def removeLeaf : List (List Char) → List Char → Bool × List (List Char)
  | [], _ => (false, [])
  | a :: rest, leaf =>
      if a = leaf then (true, rest)
      else
        let r := removeLeaf rest leaf
        (r.1, a :: r.2)

/-- Model of `LockStatus` of `src/shared/types.ts` (a string enum in the source). -/
inductive LockStatus where
  | pending
  | active
  | fulfilled
  | settled
  | expired
  | cancelled
deriving DecidableEq, Repr

/-- Model of `ResourceLock` of `src/shared/types.ts`. -/
structure ResourceLock where
  id : List Char
  owner : List Char
  asset : AssetIdentifier
  amount : Nat
  lockedAt : Nat
  expiresAt : Nat
  nonce : Nat
  fulfillmentCondition : FulfillmentCondition
  status : LockStatus
  userSignature : Option (List Char) := none
  ccmSignature : Option (List Char) := none
deriving DecidableEq, Repr

/-- Model of `riskLimits` of `EnclaveConfig`. -/
structure RiskLimits where
  maxTotalLockedPerAccount : Nat
  maxSingleLockAmount : Nat
  maxConcurrentLocks : Nat
  maxDailyVolume : Nat
deriving DecidableEq, Repr

/-- Model of `EnclaveConfig` (the fields the core reads; `supportedAssets` is never
consulted by any operation). -/
structure EnclaveConfig where
  maxLockDuration : Nat
  minLockDuration : Nat
  supportedChains : List Nat
  settlementBuffer : Nat
  riskLimits : RiskLimits
deriving DecidableEq, Repr

/-- Model of `DEFAULT_CONFIG` of `src/enclave/ccm.ts`. -/
def DEFAULT_CONFIG : EnclaveConfig :=
  { maxLockDuration := 3600
    minLockDuration := 30
    supportedChains := [1, 10, 137, 42161, 8453]
    settlementBuffer := 300
    riskLimits :=
      { maxTotalLockedPerAccount := 1000000000000000000000000
        maxSingleLockAmount := 100000000000000000000000
        maxConcurrentLocks := 100
        maxDailyVolume := 10000000000000000000000000 } }

/-- Model of `CCM_DOMAIN` of `src/enclave/ccm.ts` (chainId overridden per lock). -/
def CCM_DOMAIN : EIP712Domain :=
  { name := "CredibleCommitmentMachine"
    version := "1.0.0"
    chainId := 0
    verifyingContract := zeroAddress }

/-- The enclave state (`EnclaveState` plus the `lockMerkleTree` and
`dailyVolume` fields of the `CredibleCommitmentMachine` class).  The Merkle
tree is represented by its leaf list; layers and root are recomputed on every
mutation exactly as `buildTree` does. -/
structure CCMState where
  enclaveId : List Char
  privateKey : List Char
  publicKey : List Char
  locks : List (List Char × ResourceLock)
  nonces : List (List Char × Nat)
  stateRoot : List Char
  merkleLeaves : List (List Char)
  dailyVolume : List (String × Nat)
deriving DecidableEq, Repr

/-- The state built by the `CredibleCommitmentMachine` constructor: empty
maps, empty Merkle tree, all-zero state root. -/
def initState (enclaveId privateKey publicKey : List Char) : CCMState :=
  { enclaveId, privateKey, publicKey
    locks := []
    nonces := []
    stateRoot := zeroHash
    merkleLeaves := []
    dailyVolume := [] }

/-- The distinct error kinds thrown by the core (`throw new Error(...)`),
one constructor per `throw` site. -/
inductive CCMError where
  | lockNotFound
  | invalidLockStatus (s : LockStatus)
  | invalidSignature
  | lockExpired
  | unsupportedChain (c : Nat)
  | missingContractAddress
  | amountNotPositive
  | amountExceedsLimit
  | durationTooShort
  | durationTooLong
  | tooManyConcurrentLocks
  | totalLockedExceeded
  | dailyVolumeExceeded
  | invalidTransactionHash
  | invalidBlockHash
  | cannotCancel (s : LockStatus)
  | invalidCancellationSignature
  | unsupportedAssetKind
deriving DecidableEq, Repr

/-- Model of `validateAsset`.  The source's membership test of `assetType` in the four
allowed strings is vacuous here because `AssetType` is already the sum of
those four values. -/
def validateAsset (cfg : EnclaveConfig) (a : AssetIdentifier) :
    Except CCMError Unit :=
  if ¬ cfg.supportedChains.contains a.chainId then
    .error (.unsupportedChain a.chainId)
  else if a.assetType ≠ .native ∧ a.contractAddress = none then
    .error .missingContractAddress
  else .ok ()

/-- Model of `validateAmount` (`amount ≤ 0n` collapses to `amount = 0` on `Nat`). -/
def validateAmount (cfg : EnclaveConfig) (amount : Nat) :
    Except CCMError Unit :=
  if amount = 0 then .error .amountNotPositive
  else if amount > cfg.riskLimits.maxSingleLockAmount then
    .error .amountExceedsLimit
  else .ok ()

/-- Model of `validateDuration`. -/
def validateDuration (cfg : EnclaveConfig) (expiresIn : Nat) :
    Except CCMError Unit :=
  if expiresIn < cfg.minLockDuration then .error .durationTooShort
  else if expiresIn > cfg.maxLockDuration then .error .durationTooLong
  else .ok ()

/-- The Active locks of an owner, compared case-insensitively, in insertion
order (`Array.from(this.state.locks.values()).filter(...)`). -/
def activeOwnerLocks (st : CCMState) (owner : List Char) :
    List ResourceLock :=
  (st.locks.filter fun p =>
      hexToLower p.2.owner = hexToLower owner ∧ p.2.status = .active).map
    (·.2)

/-- Model of `validateRiskLimits`: concurrent-lock count, per-account total, and the
daily-volume counter for `today`. -/
def validateRiskLimits (cfg : EnclaveConfig) (st : CCMState)
    (owner : List Char) (amount : Nat) (today : String) :
    Except CCMError Unit :=
  let ownerLocks := activeOwnerLocks st owner
  if ownerLocks.length ≥ cfg.riskLimits.maxConcurrentLocks then
    .error .tooManyConcurrentLocks
  else
    let totalLocked := ownerLocks.foldl (fun s l => s + l.amount) 0
    if totalLocked + amount > cfg.riskLimits.maxTotalLockedPerAccount then
      .error .totalLockedExceeded
    else
      let todayVolume := (alook st.dailyVolume today).getD 0
      if todayVolume + amount > cfg.riskLimits.maxDailyVolume then
        .error .dailyVolumeExceeded
      else .ok ()

/-- Model of `getNextNonce`: read the per-owner counter (keyed on the lowercased
owner), increment, store; returns the new nonce and the new state. -/
def getNextNonce (st : CCMState) (owner : List Char) : Nat × CCMState :=
  let key := hexToLower owner
  let next := (alook st.nonces key).getD 0 + 1
  (next, { st with nonces := aset st.nonces key next })

/-- Model of `CreateLockRequest` (the `amount` is the already-parsed `BigInt` of the
request's decimal string; `sessionKey` is carried but never consulted). -/
structure CreateLockRequest where
  owner : List Char
  sessionKey : List Char
  asset : AssetIdentifier
  amount : Nat
  expiresIn : Nat
  fulfillmentCondition : FulfillmentCondition
deriving DecidableEq, Repr

/-- Model of `CreateLockResponse`: the stored lock and the EIP-712 payload the client
must sign (`typedDataToSign.domain` / `.message`), plus the 30-second signing
window timestamp. -/
structure CreateLockResponse where
  lock : ResourceLock
  domain : EIP712Domain
  message : LockApprovalMessage
  expirationTimestamp : Nat
deriving DecidableEq, Repr

/-- Model of `createLock`.  Validation order matches the source; every `throw`
happens before any mutation, so an error leaves the state untouched. -/
def createLock (keccak : List Char → List Char) (cfg : EnclaveConfig)
    (st : CCMState) (req : CreateLockRequest) (now : Nat) (today : String) :
    CCMState × Except CCMError CreateLockResponse :=
  match validateAsset cfg req.asset with
  | .error e => (st, .error e)
  | .ok _ =>
  match validateAmount cfg req.amount with
  | .error e => (st, .error e)
  | .ok _ =>
  match validateDuration cfg req.expiresIn with
  | .error e => (st, .error e)
  | .ok _ =>
  match validateRiskLimits cfg st req.owner req.amount today with
  | .error e => (st, .error e)
  | .ok _ =>
  match validateAsset cfg req.fulfillmentCondition.targetAsset with
  | .error e => (st, .error e)
  | .ok _ =>
    let np := getNextNonce st req.owner
    let nonce := np.1
    let st1 := np.2
    let expiresAt := now + req.expiresIn
    let lockId := generateLockId keccak req.owner req.asset req.amount nonce now
    let lock : ResourceLock :=
      { id := lockId
        owner := req.owner
        asset := req.asset
        amount := req.amount
        lockedAt := now
        expiresAt := expiresAt
        nonce := nonce
        fulfillmentCondition := req.fulfillmentCondition
        status := .pending }
    let st2 := { st1 with locks := aset st1.locks lockId lock }
    let domain := { CCM_DOMAIN with chainId := req.asset.chainId }
    let message : LockApprovalMessage :=
      { lockId := lockId
        owner := req.owner
        asset := hashAsset keccak req.asset
        amount := req.amount
        nonce := nonce
        expiresAt := expiresAt
        fulfillmentHash :=
          hashFulfillmentCondition keccak req.fulfillmentCondition }
    (st2, .ok
      { lock := lock
        domain := domain
        message := message
        expirationTimestamp := now + 30 })

/-- The EIP-712 domain `signLock` rebuilds for a stored lock:
`CCM_DOMAIN` with the locked asset's chain id. -/
def lockDomain (lock : ResourceLock) : EIP712Domain :=
  { CCM_DOMAIN with chainId := lock.asset.chainId }

/-- The `LockApprovalMessage` `signLock` recomputes from the stored lock
fields. -/
def lockApprovalOf (keccak : List Char → List Char) (lock : ResourceLock) :
    LockApprovalMessage :=
  { lockId := lock.id
    owner := lock.owner
    asset := hashAsset keccak lock.asset
    amount := lock.amount
    nonce := lock.nonce
    expiresAt := lock.expiresAt
    fulfillmentHash :=
      hashFulfillmentCondition keccak lock.fulfillmentCondition }

/-- Model of `CCMAttestation` of `src/shared/types.ts`. -/
structure CCMAttestation where
  enclaveId : List Char
  timestamp : Nat
  commitmentHash : List Char
  signature : List Char
deriving DecidableEq, Repr

/-- Model of `generateCCMAttestation`: hash the lock data, wrap with the enclave id
and current time, keccak, sign with the enclave key. -/
def generateCCMAttestation (X : ExtCrypto) (st : CCMState)
    (lock : ResourceLock) (now : Nat) : CCMAttestation :=
  let lockDataHash := X.keccak (abiEncode
    [("bytes32", .hexv lock.id),
     ("address", .hexv lock.owner),
     ("bytes32", .hexv (hashAsset X.keccak lock.asset)),
     ("uint256", .natv lock.amount),
     ("uint256", .natv lock.nonce),
     ("uint256", .natv lock.expiresAt),
     ("bytes32", .hexv (hashFulfillmentCondition X.keccak
        lock.fulfillmentCondition))])
  let commitmentHash := X.keccak (abiEncode
    [("bytes32", .hexv st.enclaveId),
     ("uint256", .natv now),
     ("bytes32", .hexv lockDataHash)])
  { enclaveId := st.enclaveId
    timestamp := now
    commitmentHash := commitmentHash
    signature := X.ecsign commitmentHash st.privateKey }

/-- Model of `Commitment` of `src/shared/types.ts`. -/
structure Commitment where
  lockId : List Char
  version : Nat
  chainId : Nat
  smartAccount : List Char
  lockedAsset : AssetIdentifier
  lockedAmount : Nat
  createdAt : Nat
  expiresAt : Nat
  settlementDeadline : Nat
  fulfillmentCondition : FulfillmentCondition
  nonce : Nat
  stateRoot : List Char
  userSignatureHash : List Char
  ccmAttestation : CCMAttestation
deriving DecidableEq, Repr

/-- Model of `generateCommitment`; `lock.userSignature!` is a non-null assertion in
the source (every caller stores the signature first), rendered here with an
empty-list default. -/
def generateCommitment (keccak : List Char → List Char) (cfg : EnclaveConfig)
    (st : CCMState) (lock : ResourceLock) (attestation : CCMAttestation) :
    Commitment :=
  { lockId := lock.id
    version := 1
    chainId := lock.asset.chainId
    smartAccount := lock.owner
    lockedAsset := lock.asset
    lockedAmount := lock.amount
    createdAt := lock.lockedAt
    expiresAt := lock.expiresAt
    settlementDeadline := lock.expiresAt + cfg.settlementBuffer
    fulfillmentCondition := lock.fulfillmentCondition
    nonce := lock.nonce
    stateRoot := st.stateRoot
    userSignatureHash := keccak (lock.userSignature.getD [])
    ccmAttestation := attestation }

/-- Model of `SignLockResponse`. -/
structure SignLockResponse where
  commitment : Commitment
  status : LockStatus
deriving DecidableEq, Repr

/-- Model of `signLock`.  The branches mirror the source's order: fetch, status
check, signature recovery over the EIP-712 hash of the stored fields, then
(only on success) the mutations: store the signatures, activate, add the
lock id to the Merkle tree, recompute the root, add to today's volume, and
build the commitment from the updated state. -/
def signLock (X : ExtCrypto) (cfg : EnclaveConfig) (st : CCMState)
    (lockId : List Char) (signature : List Char) (now : Nat)
    (today : String) : CCMState × Except CCMError SignLockResponse :=
  match alook st.locks lockId with
  | none => (st, .error .lockNotFound)
  | some lock =>
    if lock.status ≠ .pending then
      (st, .error (.invalidLockStatus lock.status))
    else
      let typedDataHash :=
        hashTypedData X.keccak (lockDomain lock) (lockApprovalOf X.keccak lock)
      let recoveredSigner := X.recover typedDataHash signature
      if hexToLower recoveredSigner ≠ hexToLower lock.owner then
        (st, .error .invalidSignature)
      else
        let lock1 := { lock with userSignature := some signature }
        let ccmAttestation := generateCCMAttestation X st lock1 now
        let lock2 := { lock1 with
          ccmSignature := some ccmAttestation.signature
          status := .active }
        let leaves := st.merkleLeaves ++ [lock.id]
        let st' := { st with
          locks := aset st.locks lock.id lock2
          merkleLeaves := leaves
          stateRoot := getRoot X.keccak leaves
          dailyVolume := aset st.dailyVolume today
            ((alook st.dailyVolume today).getD 0 + lock.amount) }
        let commitment := generateCommitment X.keccak cfg st' lock2 ccmAttestation
        (st', .ok { commitment := commitment, status := lock2.status })

/-- Model of `FulfillmentProof` of `src/shared/types.ts`; the two hash fields are the
raw `0x…` request strings (the only use is the length-66 format check). -/
structure FulfillmentProof where
  transactionHash : String
  blockNumber : Nat
  blockHash : String
  logIndex : Nat
deriving DecidableEq, Repr

/-- Model of `verifyFulfillmentProof`: format checks only (each hash field must be
exactly 66 characters including the `0x` prefix). -/
def verifyFulfillmentProof (proof : FulfillmentProof) : Except CCMError Unit :=
  if proof.transactionHash.length ≠ 66 then .error .invalidTransactionHash
  else if proof.blockHash.length ≠ 66 then .error .invalidBlockHash
  else .ok ()

/-- Model of `UserOperation` of `src/shared/types.ts`. -/
structure UserOperation where
  sender : List Char
  nonce : Nat
  initCode : List Char
  callData : List Char
  callGasLimit : Nat
  verificationGasLimit : Nat
  preVerificationGas : Nat
  maxFeePerGas : Nat
  maxPriorityFeePerGas : Nat
  paymasterAndData : List Char
  signature : List Char
deriving DecidableEq, Repr

/-- The `execute(address,uint256,bytes)` selector literal of the source. -/
def executeSelector : List Char := "b61d27f6".toList

/-- The ERC-20 `transfer(address,uint256)` selector literal of the source. -/
def transferSelector : List Char := "a9059cbb".toList

/-- Model of `encodeTransferCalldata`: the settlement call data for a native or ERC-20
asset; other kinds throw `Unsupported asset type`.  The `asset.contractAddress!`
non-null assertion is rendered with a zero-address default (creation validated
its presence). -/
def encodeTransferCalldata (asset : AssetIdentifier) (recipient : List Char)
    (amount : Nat) : Except CCMError (List Char) :=
  match asset.assetType with
  | .native =>
      .ok (abiEncode
        [("bytes4", .hexv executeSelector),
         ("address", .hexv recipient),
         ("uint256", .natv amount),
         ("bytes", .hexv [])])
  | .erc20 =>
      let innerCalldata := abiEncode
        [("bytes4", .hexv transferSelector),
         ("address", .hexv recipient),
         ("uint256", .natv amount)]
      .ok (abiEncode
        [("bytes4", .hexv executeSelector),
         ("address", .hexv (asset.contractAddress.getD zeroAddress)),
         ("uint256", .natv 0),
         ("bytes", .hexv innerCalldata)])
  | _ => .error .unsupportedAssetKind

/-- The standard EntryPoint address literal of `hashUserOp`
(`0x5FF137D4b0FDCD49DcA30c7CF57E578a026d2789`, mixed case as written). -/
def entryPointAddress : List Char :=
  "5FF137D4b0FDCD49DcA30c7CF57E578a026d2789".toList

/-- Model of `hashUserOp`: the ERC-4337 style inner hash then the outer hash over
`(innerHash, entryPoint, chainId)`. -/
def hashUserOp (keccak : List Char → List Char) (userOp : UserOperation)
    (chainId : Nat) : List Char :=
  let packed := abiEncode
    [("address", .hexv userOp.sender),
     ("uint256", .natv userOp.nonce),
     ("bytes32", .hexv (keccak userOp.initCode)),
     ("bytes32", .hexv (keccak userOp.callData)),
     ("uint256", .natv userOp.callGasLimit),
     ("uint256", .natv userOp.verificationGasLimit),
     ("uint256", .natv userOp.preVerificationGas),
     ("uint256", .natv userOp.maxFeePerGas),
     ("uint256", .natv userOp.maxPriorityFeePerGas),
     ("bytes32", .hexv (keccak userOp.paymasterAndData))]
  keccak (abiEncode
    [("bytes32", .hexv (keccak packed)),
     ("address", .hexv entryPointAddress),
     ("uint256", .natv chainId)])

/-- Model of `combineSignatures`: `userSig + ccmSig.slice(2)`, i.e. digit
concatenation in this representation. -/
def combineSignatures (userSig ccmSig : List Char) : List Char :=
  userSig ++ ccmSig

/-- Model of `generateSettlementUserOp`: build the call data (may throw for
unsupported kinds), fill the fixed gas defaults, hash, co-sign with the
enclave key, and combine with the stored user signature. -/
def generateSettlementUserOp (X : ExtCrypto) (st : CCMState)
    (lock : ResourceLock) : Except CCMError UserOperation :=
  match encodeTransferCalldata lock.asset lock.fulfillmentCondition.recipient
      lock.amount with
  | .error e => .error e
  | .ok transferCalldata =>
    let userOp : UserOperation :=
      { sender := lock.owner
        nonce := lock.nonce
        initCode := []
        callData := transferCalldata
        callGasLimit := 100000
        verificationGasLimit := 100000
        preVerificationGas := 21000
        maxFeePerGas := 1000000000
        maxPriorityFeePerGas := 1000000000
        paymasterAndData := []
        signature := [] }
    let userOpHash := hashUserOp X.keccak userOp lock.asset.chainId
    let ccmSignature := X.ecsign userOpHash st.privateKey
    .ok { userOp with
      signature := combineSignatures (lock.userSignature.getD []) ccmSignature }

/-- Model of `FulfillLockResponse`. -/
structure FulfillLockResponse where
  settlementUserOp : UserOperation
  commitment : Commitment
deriving DecidableEq, Repr

/-- Model of `verifyFulfillment`.  Mirrors the source exactly, including its two
mutate-before-throw behaviours: the lazy expiry path stores the `Expired`
status (and nothing else) before throwing `LockExpired`, and a settlement
encoding failure happens after the `Fulfilled` status is already stored. -/
def verifyFulfillment (X : ExtCrypto) (cfg : EnclaveConfig) (st : CCMState)
    (lockId : List Char) (proof : FulfillmentProof) (now : Nat) :
    CCMState × Except CCMError FulfillLockResponse :=
  match alook st.locks lockId with
  | none => (st, .error .lockNotFound)
  | some lock =>
    if lock.status ≠ .active then
      (st, .error (.invalidLockStatus lock.status))
    else if now > lock.expiresAt then
      ({ st with locks := aset st.locks lock.id { lock with status := .expired } },
       .error .lockExpired)
    else
      match verifyFulfillmentProof proof with
      | .error e => (st, .error e)
      | .ok _ =>
        let lock1 := { lock with status := .fulfilled }
        let st1 := { st with locks := aset st.locks lock.id lock1 }
        match generateSettlementUserOp X st1 lock1 with
        | .error e => (st1, .error e)
        | .ok settlementUserOp =>
          let attestation := generateCCMAttestation X st1 lock1 now
          let commitment := generateCommitment X.keccak cfg st1 lock1 attestation
          (st1, .ok { settlementUserOp := settlementUserOp
                      commitment := commitment })

/-- Model of `AppAttestation` returned by `cancelLock`. -/
structure AppAttestation where
  enclaveId : List Char
  operation : String
  timestamp : Nat
  dataHash : List Char
  signature : List Char
deriving DecidableEq, Repr

/-- The bytes `cancelLock` feeds to keccak for the cancellation message:
`abiEncode(['bytes32','string'], [lockId, 'CANCEL'])`. -/
def cancelMessagePre (lockId : List Char) : List Char :=
  abiEncode [("bytes32", .hexv lockId), ("string", .strv "CANCEL")]

/-- The bytes `cancelLock` feeds to keccak for the attestation's `dataHash`:
`abiEncode(['bytes32','uint8'], [lockId, LockStatus.CANCELLED])` (the status
is the enum's string value `'CANCELLED'`). -/
def cancelDataHashPre (lockId : List Char) : List Char :=
  abiEncode [("bytes32", .hexv lockId), ("uint8", .strv "CANCELLED")]

/-- Model of `cancelLock`. -/
def cancelLock (X : ExtCrypto) (st : CCMState) (lockId : List Char)
    (userSignature : List Char) (now : Nat) :
    CCMState × Except CCMError AppAttestation :=
  match alook st.locks lockId with
  | none => (st, .error .lockNotFound)
  | some lock =>
    if lock.status ≠ .active ∧ lock.status ≠ .pending then
      (st, .error (.cannotCancel lock.status))
    else
      let cancelMessage := X.keccak (cancelMessagePre lockId)
      let signer := X.recover cancelMessage userSignature
      if hexToLower signer ≠ hexToLower lock.owner then
        (st, .error .invalidCancellationSignature)
      else
        let leaves := (removeLeaf st.merkleLeaves lockId).2
        let st' := { st with
          locks := aset st.locks lockId { lock with status := .cancelled }
          merkleLeaves := leaves
          stateRoot := getRoot X.keccak leaves }
        (st', .ok
          { enclaveId := st.enclaveId
            operation := "CANCEL"
            timestamp := now
            dataHash := X.keccak (cancelDataHashPre lockId)
            signature := X.ecsign cancelMessage st.privateKey })

/-- The loop body of `cleanupExpiredLocks`: walk the lock map in insertion
order, expire each Active lock past its deadline and remove its id from the
Merkle leaf list; returns the new map, new leaves and the count. -/
def cleanupFold (now : Nat) :
    List (List Char × ResourceLock) → List (List Char) →
    List (List Char × ResourceLock) × List (List Char) × Nat
  | [], leaves => ([], leaves, 0)
  | (lockId, lock) :: rest, leaves =>
      if lock.status = .active ∧ now > lock.expiresAt then
        let r := cleanupFold now rest (removeLeaf leaves lockId).2
        ((lockId, { lock with status := .expired }) :: r.1, r.2.1, r.2.2 + 1)
      else
        let r := cleanupFold now rest leaves
        ((lockId, lock) :: r.1, r.2.1, r.2.2)

/-- Model of `cleanupExpiredLocks`: the state root is recomputed only when something
was cleaned. -/
def cleanupExpiredLocks (keccak : List Char → List Char) (st : CCMState)
    (now : Nat) : CCMState × Nat :=
  let r := cleanupFold now st.locks st.merkleLeaves
  if r.2.2 > 0 then
    ({ st with
        locks := r.1
        merkleLeaves := r.2.1
        stateRoot := getRoot keccak r.2.1 }, r.2.2)
  else
    ({ st with locks := r.1, merkleLeaves := r.2.1 }, r.2.2)

/-- One externally invoked mutating operation together with the ambient
clock/date values the source would read during it. -/
inductive Op where
  | create (req : CreateLockRequest) (now : Nat) (today : String)
  | sign (lockId : List Char) (signature : List Char) (now : Nat) (today : String)
  | fulfill (lockId : List Char) (proof : FulfillmentProof) (now : Nat)
  | cancel (lockId : List Char) (signature : List Char) (now : Nat)
  | cleanup (now : Nat)

/-- The state after one operation (responses and errors discarded). -/
def step (X : ExtCrypto) (cfg : EnclaveConfig) (st : CCMState) : Op → CCMState
  | .create req now today => (createLock X.keccak cfg st req now today).1
  | .sign lockId signature now today =>
      (signLock X cfg st lockId signature now today).1
  | .fulfill lockId proof now => (verifyFulfillment X cfg st lockId proof now).1
  | .cancel lockId signature now => (cancelLock X st lockId signature now).1
  | .cleanup now => (cleanupExpiredLocks X.keccak st now).1

/-- The state after a sequence of operations. -/
def run (X : ExtCrypto) (cfg : EnclaveConfig) (st : CCMState) :
    List Op → CCMState
  | [] => st
  | op :: rest => run X cfg (step X cfg st op) rest

/-- The nonces assigned, in invocation order, by the successful `createLock`
calls of a trace whose request owner equals `owner` case-insensitively. -/
def createdNonces (X : ExtCrypto) (cfg : EnclaveConfig) (owner : List Char)
    (st : CCMState) : List Op → List Nat
  | [] => []
  | op :: rest =>
      (match op with
        | .create req now today =>
            match (createLock X.keccak cfg st req now today).2 with
            | .ok resp =>
                if hexToLower req.owner = hexToLower owner then
                  [resp.lock.nonce]
                else []
            | .error _ => []
        | _ => []) ++ createdNonces X cfg owner (step X cfg st op) rest

deriving instance DecidableEq for Except

/-- Returns `true` iff an `Except` value is a success. -/
def isOkE : Except CCMError α → Bool
  | .ok _ => true
  | .error _ => false

/-- A lock map is well-keyed when every entry is stored under its lock's
`id` field — true of every state the engine actually builds, since all
insertions use the lock's own id as the key. -/
def WellKeyed (st : CCMState) : Prop :=
  ∀ k l, alook st.locks k = some l → l.id = k

/-- Modelled from the spec: the cancellation-message pre-image the claim
describes — the 32-byte `lockId` word followed by the standard ABI encoding
of the string `"CANCEL"` (length word, then the 6 UTF-8 bytes right-padded
to 32).  For comparison with the source's `cancelMessagePre`. -/
def cancelMessagePreClaimed (lockId : List Char) : List Char :=
  padStartH 64 '0' lockId ++
    (padStartH 64 '0' (natToHex 6) ++ padEndH 64 '0' (utf8Hex "CANCEL"))

/-- Modelled from the spec: the 128-byte `hashAsset` pre-image the claim
describes — four 32-byte big-endian words `(chainId, kind, contract-or-zero,
tokenId-or-0)`.  For comparison with the source's `hashAssetPre`. -/
def hashAssetPreClaimed (a : AssetIdentifier) : List Char :=
  padStartH 64 '0' (natToHex a.chainId) ++
    padStartH 64 '0' (natToHex (assetKindNum a.assetType)) ++
    padStartH 64 '0' (hexToLower (a.contractAddress.getD zeroAddress)) ++
    padStartH 64 '0' (natToHex (a.tokenId.getD 0))

/-- A concrete stand-in for the abstract keccak parameter, used to evaluate
the model on explicit inputs: the hex digits of the sum of the input's
character codes. -/
def demoKeccak (l : List Char) : List Char :=
  natToHex (l.foldl (fun s c => s + c.toNat) 0)

/-- The demo user address (`0x111…1`). -/
def demoOwner : List Char := List.replicate 40 '1'

/-- A concrete `ExtCrypto` whose recovery always yields `demoOwner`
(a correctly signing user). -/
def demoX : ExtCrypto :=
  { keccak := demoKeccak
    recover := fun _ _ => demoOwner
    ecsign := fun h k => h ++ k }

/-- A concrete `ExtCrypto` whose recovery always yields a different address
(a wrongly signing user). -/
def demoXBad : ExtCrypto :=
  { keccak := demoKeccak
    recover := fun _ _ => List.replicate 40 '2'
    ecsign := fun h k => h ++ k }

/-- A supported native source asset on chain 1. -/
def demoAssetNative : AssetIdentifier := { chainId := 1, assetType := .native }

/-- The USDC-style ERC-20 contract address used by the spec's scenarios. -/
def demoErc20Contract : List Char :=
  "A0b86991c6218b36c1d19D4a2e9Eb0cE3606eB48".toList

/-- A supported ERC-20 source asset on chain 1. -/
def demoAssetErc20 : AssetIdentifier :=
  { chainId := 1, assetType := .erc20, contractAddress := some demoErc20Contract }

/-- A fulfillment condition targeting native on chain 42161. -/
def demoCond : FulfillmentCondition :=
  { targetChainId := 42161
    targetAsset := { chainId := 42161, assetType := .native }
    targetAmount := 7
    recipient := List.replicate 40 '3' }

/-- A valid `createLock` request from `demoOwner`. -/
def demoReq : CreateLockRequest :=
  { owner := demoOwner
    sessionKey := demoOwner
    asset := demoAssetNative
    amount := 1000
    expiresIn := 300
    fulfillmentCondition := demoCond }

/-- The enclave state as built by the constructor, with fixed demo identity
material. -/
def demoSt0 : CCMState :=
  initState (List.replicate 64 'e') (List.replicate 64 'f')
    (List.replicate 40 '9')

/-- The id of the lock `demoReq` creates at time 1000 (nonce 1). -/
def demoLockId : List Char :=
  generateLockId demoKeccak demoOwner demoAssetNative 1000 1 1000

/-- A correctly formatted fulfillment proof (66-character hash strings). -/
def demoProof : FulfillmentProof :=
  { transactionHash := String.mk ('0' :: 'x' :: List.replicate 64 'a')
    blockNumber := 1
    blockHash := String.mk ('0' :: 'x' :: List.replicate 64 'b')
    logIndex := 0 }

/-- The state after create (t=1000) and sign (t=1010) of the demo lock. -/
def demoSt2 : CCMState :=
  run demoX DEFAULT_CONFIG demoSt0
    [.create demoReq 1000 "2026-02-03",
     .sign demoLockId (List.replicate 130 '5') 1010 "2026-02-03"]

/-- The state after additionally fulfilling the demo lock at t=1100
(before its expiry 1300). -/
def demoSt3 : CCMState :=
  (verifyFulfillment demoX DEFAULT_CONFIG demoSt2 demoLockId demoProof 1100).1

/-- An Active ERC-721 lock, used to show the success clause of C8 does not
hold for every Active lock. -/
def c8Lock : ResourceLock :=
  { id := List.replicate 64 '9'
    owner := demoOwner
    asset := { chainId := 1, assetType := .erc721,
               contractAddress := some demoErc20Contract, tokenId := some 5 }
    amount := 10
    lockedAt := 1000
    expiresAt := 1300
    nonce := 1
    fulfillmentCondition := demoCond
    status := .active }

/-- A state holding the Active ERC-721 lock. -/
def c8St : CCMState :=
  { demoSt0 with locks := [(c8Lock.id, c8Lock)], merkleLeaves := [c8Lock.id] }

/-- The Active lock stored in `demoSt2` under `demoLockId`. -/
def demoActiveLock : ResourceLock := (alook demoSt2.locks demoLockId).getD c8Lock

/-- A Pending lock long past its expiry and signing window, stored under its
own id. -/
def c9Lock : ResourceLock :=
  { id := List.replicate 64 '8'
    owner := demoOwner
    asset := demoAssetNative
    amount := 5
    lockedAt := 1000
    expiresAt := 1300
    nonce := 1
    fulfillmentCondition := demoCond
    status := .pending }

/-- A state holding only `c9Lock`. -/
def c9St : CCMState := { demoSt0 with locks := [(c9Lock.id, c9Lock)] }

/-- The state after the demo create only (lock still Pending). -/
def demoSt1 : CCMState :=
  (createLock demoKeccak DEFAULT_CONFIG demoSt0 demoReq 1000 "2026-02-03").1

/-- The Pending demo lock stored in `demoSt1`. -/
def demoPendingLock : ResourceLock :=
  (alook demoSt1.locks demoLockId).getD c8Lock

theorem alook_aset_self [DecidableEq K] (m : List (K × V)) (k : K) (v : V) :
    alook (aset m k v) k = some v := by
  induction m with
  | nil => simp [alook, aset]
  | cons p rest ih =>
    by_cases h : p.1 = k <;> simp [alook, aset, h, ih]

theorem alook_aset_ne [DecidableEq K] (m : List (K × V)) (k k' : K) (v : V)
    (h : k' ≠ k) : alook (aset m k' v) k = alook m k := by
  induction m with
  | nil => simp [alook, aset, h]
  | cons p rest ih =>
    by_cases hp : p.1 = k' <;> by_cases hk : p.1 = k <;>
      simp_all [alook, aset]

/-- C1: The claim states that a lock's ID is a Merkle leaf iff the lock is
Active, and in particular that `verifyFulfillment`'s Active → Fulfilled
transition (and its lazy-expiry Active → Expired transition) removes the ID
from the Merkle index.  The code does neither: after a create → sign →
fulfill run the demo lock is `Fulfilled` yet its ID is still a Merkle leaf
(and the non-zero state root still covers it), refuting the claimed
invariant.  (`cleanupExpiredLocks` does remove, but `verifyFulfillment`
never calls `removeLeaf`.) -/
theorem fulfilled_lock_stays_in_merkle_index :
    isOkE (verifyFulfillment demoX DEFAULT_CONFIG demoSt2 demoLockId
        demoProof 1100).2 = true ∧
    (alook demoSt3.locks demoLockId).map (·.status) = some .fulfilled ∧
    demoLockId ∈ demoSt3.merkleLeaves ∧
    demoSt3.stateRoot ≠ zeroHash := by decide

/-- C2: The claim describes the cancellation message as the keccak of the
32-byte `lockId` word followed by the ABI encoding of the string
`"CANCEL"`.  The source's `abiEncode` has no `'string'` branch, so the
`'CANCEL'` argument contributes nothing: the hashed pre-image is exactly the
64 hex digits of the `lockId` word and differs from the claimed pre-image.
The returned attestation's signature does sign the message that was actually
used (the keccak of the bare `lockId` word). -/
theorem cancel_message_drops_cancel_string :
    cancelMessagePre (List.replicate 64 '1')
      = padStartH 64 '0' (List.replicate 64 '1') ∧
    (cancelMessagePre (List.replicate 64 '1')).length = 64 ∧
    cancelMessagePre (List.replicate 64 '1')
      ≠ cancelMessagePreClaimed (List.replicate 64 '1') ∧
    (cancelLock demoX demoSt2 demoLockId (List.replicate 130 '7') 1200).2
      = .ok { enclaveId := demoSt2.enclaveId
              operation := "CANCEL"
              timestamp := 1200
              dataHash := demoKeccak (cancelDataHashPre demoLockId)
              signature := demoX.ecsign (demoKeccak (cancelMessagePre demoLockId))
                demoSt2.privateKey } := by decide

/-- C3: The claim states that settlement `callData` begins with the
`execute(address,uint256,bytes)` selector `0xb61d27f6` (and, for ERC-20, that
the inner call data begins with `0xa9059cbb`).  The source's `abiEncode` has
no `'bytes4'` branch, so both selectors are dropped: the native call data is
exactly `recipientWord ‖ amountWord ‖ lengthWord(0)` (96 bytes starting with
the zero padding of the recipient word), and the ERC-20 call data is
`contractWord ‖ zeroWord ‖ lengthWord(64) ‖ recipientWord ‖ amountWord`
with no selector anywhere. -/
theorem settlement_calldata_drops_selectors :
    encodeTransferCalldata demoAssetNative (List.replicate 40 '3') 5
      = .ok (padStartH 64 '0' (List.replicate 40 '3') ++
          padStartH 64 '0' (natToHex 5) ++ padStartH 64 '0' (natToHex 0)) ∧
    encodeTransferCalldata demoAssetErc20 (List.replicate 40 '3') 5
      = .ok (padStartH 64 '0' (hexToLower demoErc20Contract) ++
          padStartH 64 '0' (natToHex 0) ++ padStartH 64 '0' (natToHex 64) ++
          padStartH 64 '0' (List.replicate 40 '3') ++
          padStartH 64 '0' (natToHex 5)) ∧
    (match encodeTransferCalldata demoAssetNative (List.replicate 40 '3') 5 with
      | .ok l => l.take 8
      | .error _ => []) ≠ executeSelector ∧
    (match encodeTransferCalldata demoAssetErc20 (List.replicate 40 '3') 5 with
      | .ok l => l.take 8
      | .error _ => []) ≠ executeSelector := by decide

/-- C4: The claim states that the `hashAsset` pre-image is four 32-byte
words — `(chainId, kind, contract-or-zero, tokenId-or-0)` — 128 bytes with
the kind as its own word.  The source's `abiEncode` has no `'uint8'` branch,
so the kind word is dropped: the pre-image of the demo ERC-20 asset is 96
bytes (`chainIdWord ‖ contractWord ‖ tokenIdWord`), and differs from the
claimed 128-byte encoding.  (Consequently assets differing only in kind can
hash identically.) -/
theorem hashAsset_preimage_drops_kind_word :
    hashAssetPre demoAssetErc20
      = padStartH 64 '0' (natToHex 1) ++
          padStartH 64 '0' (hexToLower demoErc20Contract) ++
          padStartH 64 '0' (natToHex 0) ∧
    (hashAssetPre demoAssetErc20).length = 192 ∧
    hashAssetPre demoAssetErc20 ≠ hashAssetPreClaimed demoAssetErc20 ∧
    hashAssetPre { chainId := 1, assetType := .erc721,
                   contractAddress := some demoErc20Contract }
      = hashAssetPre { chainId := 1, assetType := .erc1155,
                       contractAddress := some demoErc20Contract } := by decide

/-- C5: The claim states that `verifyProof(leaf, getProof(index), getRoot())`
is true for every valid index, including indices whose node is paired with a
duplicated last element.  With three leaves, `buildTree` hashes the third
leaf with itself, but `getProof(2)` pushes no sibling for that level, so
`verifyProof` skips the self-hashing step and returns `false` for the leaf
at index 2, while indices 0 and 1 (no duplication on their paths) verify. -/
theorem merkle_roundtrip_fails_at_duplicated_node :
    ([['1'], ['2'], ['4']].getD 2 [] = ['4']) ∧
    verifyProof demoKeccak ['4']
      (getProof demoKeccak [['1'], ['2'], ['4']] 2)
      (getRoot demoKeccak [['1'], ['2'], ['4']]) = false ∧
    verifyProof demoKeccak ['1']
      (getProof demoKeccak [['1'], ['2'], ['4']] 0)
      (getRoot demoKeccak [['1'], ['2'], ['4']]) = true ∧
    verifyProof demoKeccak ['2']
      (getProof demoKeccak [['1'], ['2'], ['4']] 1)
      (getRoot demoKeccak [['1'], ['2'], ['4']]) = true := by decide

theorem createLock_char (keccak : List Char → List Char) (cfg : EnclaveConfig)
    (st : CCMState) (req : CreateLockRequest) (now : Nat) (today : String) :
    ((createLock keccak cfg st req now today).1 = st ∧
      ∃ e, (createLock keccak cfg st req now today).2 = .error e) ∨
    (∃ resp,
      (createLock keccak cfg st req now today).2 = .ok resp ∧
      resp.lock.status = .pending ∧
      resp.lock.nonce = (alook st.nonces (hexToLower req.owner)).getD 0 + 1 ∧
      (createLock keccak cfg st req now today).1.nonces
        = aset st.nonces (hexToLower req.owner)
            ((alook st.nonces (hexToLower req.owner)).getD 0 + 1) ∧
      (createLock keccak cfg st req now today).1.locks
        = aset st.locks resp.lock.id resp.lock ∧
      (createLock keccak cfg st req now today).1.dailyVolume = st.dailyVolume ∧
      (createLock keccak cfg st req now today).1.merkleLeaves
        = st.merkleLeaves ∧
      (createLock keccak cfg st req now today).1.stateRoot = st.stateRoot) := by
  unfold createLock
  repeat' split
  all_goals
    first
      | exact Or.inl ⟨rfl, _, rfl⟩
      | exact Or.inr ⟨_, rfl, rfl, rfl, rfl, rfl, rfl, rfl, rfl⟩

theorem signLock_char (X : ExtCrypto) (cfg : EnclaveConfig) (st : CCMState)
    (lockId sig : List Char) (now : Nat) (today : String) :
    ((signLock X cfg st lockId sig now today).1 = st ∧
      ∃ e, (signLock X cfg st lockId sig now today).2 = .error e) ∨
    (∃ lock,
      alook st.locks lockId = some lock ∧
      lock.status = .pending ∧
      (∃ lock2, lock2.status = .active ∧
        (signLock X cfg st lockId sig now today).1.locks
          = aset st.locks lock.id lock2) ∧
      (signLock X cfg st lockId sig now today).1.nonces = st.nonces ∧
      (signLock X cfg st lockId sig now today).1.merkleLeaves
        = st.merkleLeaves ++ [lock.id] ∧
      (signLock X cfg st lockId sig now today).1.dailyVolume
        = aset st.dailyVolume today
            ((alook st.dailyVolume today).getD 0 + lock.amount) ∧
      isOkE (signLock X cfg st lockId sig now today).2 = true) := by
  unfold signLock
  split
  · exact Or.inl ⟨rfl, _, rfl⟩
  · next lock heq =>
      split
      · exact Or.inl ⟨rfl, _, rfl⟩
      · next hpend =>
          dsimp only
          split
          · exact Or.inl ⟨rfl, _, rfl⟩
          · exact Or.inr ⟨lock, heq, not_not.mp hpend,
              ⟨_, rfl, rfl⟩, rfl, rfl, rfl, rfl⟩

theorem verifyFulfillment_char (X : ExtCrypto) (cfg : EnclaveConfig)
    (st : CCMState) (lockId : List Char) (proof : FulfillmentProof)
    (now : Nat) :
    ((verifyFulfillment X cfg st lockId proof now).1 = st ∧
      ∃ e, (verifyFulfillment X cfg st lockId proof now).2 = .error e) ∨
    (∃ lock newStatus,
      alook st.locks lockId = some lock ∧
      lock.status = .active ∧
      (newStatus = LockStatus.expired ∨ newStatus = LockStatus.fulfilled) ∧
      (verifyFulfillment X cfg st lockId proof now).1.locks
        = aset st.locks lock.id { lock with status := newStatus } ∧
      (verifyFulfillment X cfg st lockId proof now).1.nonces = st.nonces ∧
      (verifyFulfillment X cfg st lockId proof now).1.merkleLeaves
        = st.merkleLeaves ∧
      (verifyFulfillment X cfg st lockId proof now).1.dailyVolume
        = st.dailyVolume ∧
      (verifyFulfillment X cfg st lockId proof now).1.stateRoot
        = st.stateRoot) := by
  unfold verifyFulfillment
  split
  · exact Or.inl ⟨rfl, _, rfl⟩
  · next lock heq =>
      split
      · exact Or.inl ⟨rfl, _, rfl⟩
      · next hact =>
          split
          · exact Or.inr ⟨lock, .expired, heq, not_not.mp hact,
              Or.inl rfl, rfl, rfl, rfl, rfl, rfl⟩
          · split
            · exact Or.inl ⟨rfl, _, rfl⟩
            · dsimp only
              split
              · exact Or.inr ⟨lock, .fulfilled, heq, not_not.mp hact,
                  Or.inr rfl, rfl, rfl, rfl, rfl, rfl⟩
              · exact Or.inr ⟨lock, .fulfilled, heq, not_not.mp hact,
                  Or.inr rfl, rfl, rfl, rfl, rfl, rfl⟩

theorem cancelLock_char (X : ExtCrypto) (st : CCMState)
    (lockId sig : List Char) (now : Nat) :
    ((cancelLock X st lockId sig now).1 = st ∧
      ∃ e, (cancelLock X st lockId sig now).2 = .error e) ∨
    (∃ lock,
      alook st.locks lockId = some lock ∧
      (lock.status = .active ∨ lock.status = .pending) ∧
      (cancelLock X st lockId sig now).1.locks
        = aset st.locks lockId { lock with status := .cancelled } ∧
      (cancelLock X st lockId sig now).1.nonces = st.nonces ∧
      (cancelLock X st lockId sig now).1.dailyVolume = st.dailyVolume ∧
      (cancelLock X st lockId sig now).1.merkleLeaves
        = (removeLeaf st.merkleLeaves lockId).2) := by
  unfold cancelLock
  split
  · exact Or.inl ⟨rfl, _, rfl⟩
  · next lock heq =>
      split
      · exact Or.inl ⟨rfl, _, rfl⟩
      · next hstat =>
          dsimp only
          split
          · exact Or.inl ⟨rfl, _, rfl⟩
          · refine Or.inr ⟨lock, heq, ?_, rfl, rfl, rfl, rfl⟩
            by_cases h : lock.status = LockStatus.active
            · exact Or.inl h
            · exact Or.inr (by tauto)

theorem cleanupFold_alook (now : Nat) :
    ∀ (locks : List (List Char × ResourceLock)) (leaves : List (List Char))
      (k : List Char),
      alook (cleanupFold now locks leaves).1 k
        = (alook locks k).map fun l =>
            if l.status = .active ∧ now > l.expiresAt
            then { l with status := .expired } else l := by
  intro locks
  induction locks with
  | nil => intro leaves k; simp [cleanupFold, alook]
  | cons p rest ih =>
    intro leaves k
    obtain ⟨lockId, lock⟩ := p
    by_cases hk : lockId = k <;>
      by_cases hcond : lock.status = .active ∧ now > lock.expiresAt <;>
        simp [cleanupFold, alook, hk, hcond, ih]

theorem cleanupExpiredLocks_frames (keccak : List Char → List Char)
    (st : CCMState) (now : Nat) :
    (cleanupExpiredLocks keccak st now).1.nonces = st.nonces ∧
    (cleanupExpiredLocks keccak st now).1.dailyVolume = st.dailyVolume ∧
    ∀ k, alook (cleanupExpiredLocks keccak st now).1.locks k
      = (alook st.locks k).map fun l =>
          if l.status = .active ∧ now > l.expiresAt
          then { l with status := .expired } else l := by
  unfold cleanupExpiredLocks
  dsimp only
  split <;>
    exact ⟨rfl, rfl, fun k => cleanupFold_alook now st.locks st.merkleLeaves k⟩

theorem createdNonces_range_aux (X : ExtCrypto) (cfg : EnclaveConfig)
    (owner : List Char) :
    ∀ (ops : List Op) (st : CCMState),
      createdNonces X cfg owner st ops
        = List.range' ((alook st.nonces (hexToLower owner)).getD 0 + 1)
            (createdNonces X cfg owner st ops).length := by
  intro ops
  induction ops with
  | nil => intro st; simp [createdNonces]
  | cons op rest ih =>
    intro st
    cases op with
    | create req now today =>
      rcases createLock_char X.keccak cfg st req now today with
        ⟨hst, e, herr⟩ |
        ⟨resp, hok, _, hnonce, hnonces, _, _, _, _⟩
      · simp only [createdNonces, step, herr, List.nil_append]
        rw [hst]
        exact ih st
      · by_cases hm : hexToLower req.owner = hexToLower owner
        · have hkey :
              (alook (createLock X.keccak cfg st req now today).1.nonces
                (hexToLower owner)).getD 0
                = (alook st.nonces (hexToLower owner)).getD 0 + 1 := by
            rw [hnonces, hm, alook_aset_self]
            simp [hm]
          have hrest := ih (createLock X.keccak cfg st req now today).1
          rw [hkey] at hrest
          simp only [createdNonces, step, hok, hm, if_pos]
          rw [hrest, hnonce, hm]
          simp [List.range'_succ]
        · have hkey :
              (alook (createLock X.keccak cfg st req now today).1.nonces
                (hexToLower owner)).getD 0
                = (alook st.nonces (hexToLower owner)).getD 0 := by
            rw [hnonces, alook_aset_ne _ _ _ _ hm]
          have hrest := ih (createLock X.keccak cfg st req now today).1
          rw [hkey] at hrest
          simp only [createdNonces, step, hok, hm, if_neg, List.nil_append]
          exact hrest
    | sign lockId sig now today =>
      have hn : (step X cfg st (.sign lockId sig now today)).nonces
          = st.nonces := by
        rcases signLock_char X cfg st lockId sig now today with
          ⟨hst, _⟩ | ⟨_, _, _, _, hn, _⟩
        · simpa [step] using congrArg CCMState.nonces hst
        · simpa [step] using hn
      have hrest := ih (step X cfg st (.sign lockId sig now today))
      rw [hn] at hrest
      simpa only [createdNonces, List.nil_append] using hrest
    | fulfill lockId proof now =>
      have hn : (step X cfg st (.fulfill lockId proof now)).nonces
          = st.nonces := by
        rcases verifyFulfillment_char X cfg st lockId proof now with
          ⟨hst, _⟩ | ⟨_, _, _, _, _, _, hn, _⟩
        · simpa [step] using congrArg CCMState.nonces hst
        · simpa [step] using hn
      have hrest := ih (step X cfg st (.fulfill lockId proof now))
      rw [hn] at hrest
      simpa only [createdNonces, List.nil_append] using hrest
    | cancel lockId sig now =>
      have hn : (step X cfg st (.cancel lockId sig now)).nonces
          = st.nonces := by
        rcases cancelLock_char X st lockId sig now with
          ⟨hst, _⟩ | ⟨_, _, _, _, hn, _⟩
        · simpa [step] using congrArg CCMState.nonces hst
        · simpa [step] using hn
      have hrest := ih (step X cfg st (.cancel lockId sig now))
      rw [hn] at hrest
      simpa only [createdNonces, List.nil_append] using hrest
    | cleanup now =>
      have hn : (step X cfg st (.cleanup now)).nonces = st.nonces := by
        simpa [step] using (cleanupExpiredLocks_frames X.keccak st now).1
      have hrest := ih (step X cfg st (.cleanup now))
      rw [hn] at hrest
      simpa only [createdNonces, List.nil_append] using hrest

/-- C6: For every owner (compared case-insensitively) and every operation
sequence started from the freshly constructed state, the nonces assigned by
the successful `createLock` calls for that owner are exactly `1, 2, 3, …` in
invocation order (`List.range' 1 k`), and a failed `createLock` leaves the
state — in particular the nonce map — completely unchanged. -/
theorem createLock_nonces_sequential :
    (∀ (X : ExtCrypto) (cfg : EnclaveConfig) (owner eid pk pub : List Char)
        (ops : List Op),
      createdNonces X cfg owner (initState eid pk pub) ops
        = List.range' 1
            (createdNonces X cfg owner (initState eid pk pub) ops).length) ∧
    (∀ (keccak : List Char → List Char) (cfg : EnclaveConfig)
        (st : CCMState) (req : CreateLockRequest) (now : Nat)
        (today : String) (e : CCMError),
      (createLock keccak cfg st req now today).2 = .error e →
      (createLock keccak cfg st req now today).1 = st) := by
  constructor
  · intro X cfg owner eid pk pub ops
    have h := createdNonces_range_aux X cfg owner ops (initState eid pk pub)
    simpa [initState, alook] using h
  · intro keccak cfg st req now today e herr
    rcases createLock_char keccak cfg st req now today with
      ⟨hst, _⟩ | ⟨resp, hok, _⟩
    · exact hst
    · rw [hok] at herr; cases herr

/-- Witness for `createLock_nonces_sequential`: two successful demo creates
yield nonces `[1, 2]`, and a create with amount 0 fails with
`amountNotPositive` leaving the state unchanged. -/
theorem createLock_nonces_sequential_witness :
    createdNonces demoX DEFAULT_CONFIG demoOwner demoSt0
        [.create demoReq 1000 "2026-02-03", .create demoReq 1100 "2026-02-03"]
      = List.range' 1
          (createdNonces demoX DEFAULT_CONFIG demoOwner demoSt0
            [.create demoReq 1000 "2026-02-03",
             .create demoReq 1100 "2026-02-03"]).length ∧
    (createLock demoKeccak DEFAULT_CONFIG demoSt0
        { demoReq with amount := 0 } 1000 "2026-02-03").1 = demoSt0 :=
  ⟨createLock_nonces_sequential.1 demoX DEFAULT_CONFIG demoOwner _ _ _ _,
   createLock_nonces_sequential.2 demoKeccak DEFAULT_CONFIG demoSt0
     { demoReq with amount := 0 } 1000 "2026-02-03"
     CCMError.amountNotPositive (by decide)⟩

/-- C7: `signLock` on a Pending lock whose recovered signer is not
case-insensitively equal to the lock's owner returns exactly
`(st, error InvalidSignature)`: the error is `InvalidSignature` and the state
is completely unmutated (status still Pending, no signatures stored, Merkle
index, state root and daily-volume counter untouched). -/
theorem signLock_bad_signature_no_mutation (X : ExtCrypto)
    (cfg : EnclaveConfig) (st : CCMState) (lockId sig : List Char)
    (now : Nat) (today : String) (lock : ResourceLock)
    (hl : alook st.locks lockId = some lock)
    (hp : lock.status = .pending)
    (hsig : hexToLower (X.recover
        (hashTypedData X.keccak (lockDomain lock) (lockApprovalOf X.keccak lock))
        sig) ≠ hexToLower lock.owner) :
    signLock X cfg st lockId sig now today = (st, .error .invalidSignature) := by
  unfold signLock
  rw [hl]
  dsimp only
  rw [if_neg (by simp [hp]), if_pos hsig]

/-- Witness for `signLock_bad_signature_no_mutation`: on the demo state with
its Pending lock, a signature recovering to `0x22…2` (not the owner
`0x11…1`) makes `signLock` fail with `InvalidSignature` and return the state
unchanged. -/
theorem signLock_bad_signature_no_mutation_witness :
    signLock demoXBad DEFAULT_CONFIG
        (createLock demoKeccak DEFAULT_CONFIG demoSt0 demoReq 1000
          "2026-02-03").1
        demoLockId (List.replicate 130 '5') 1010 "2026-02-03"
      = ((createLock demoKeccak DEFAULT_CONFIG demoSt0 demoReq 1000
          "2026-02-03").1, .error .invalidSignature) :=
  signLock_bad_signature_no_mutation demoXBad DEFAULT_CONFIG _ demoLockId
    (List.replicate 130 '5') 1010 "2026-02-03"
    ((createLock demoKeccak DEFAULT_CONFIG demoSt0 demoReq 1000
        "2026-02-03").2.toOption.get (by decide) |>.lock)
    (by decide) (by decide) (by decide)

theorem generateSettlementUserOp_error (X : ExtCrypto) (st : CCMState)
    (lock : ResourceLock) (e : CCMError)
    (h : generateSettlementUserOp X st lock = .error e) :
    e = .unsupportedAssetKind := by
  cases hk : lock.asset.assetType <;>
    simp [generateSettlementUserOp, encodeTransferCalldata, hk] at h <;>
    simp_all

/-- C8 (amended): for an Active lock, `verifyFulfillment` at
`now = expiresAt` passes the expiry check — it never fails `LockExpired`,
and with a correctly formatted proof it succeeds provided the locked asset's
kind is native or erc20 (other kinds fail later with `UnsupportedAssetKind`);
at `now > expiresAt` it returns `LockExpired` and its only state change is
storing that lock with status Expired. -/
theorem verifyFulfillment_expiry_boundary (X : ExtCrypto)
    (cfg : EnclaveConfig) (st : CCMState) (lockId : List Char)
    (lock : ResourceLock) (proof : FulfillmentProof) (now : Nat)
    (hl : alook st.locks lockId = some lock)
    (ha : lock.status = .active) :
    (now = lock.expiresAt →
      (verifyFulfillment X cfg st lockId proof now).2 ≠ .error .lockExpired ∧
      (proof.transactionHash.length = 66 → proof.blockHash.length = 66 →
        (lock.asset.assetType = .native ∨ lock.asset.assetType = .erc20) →
        isOkE (verifyFulfillment X cfg st lockId proof now).2 = true)) ∧
    (lock.expiresAt < now →
      verifyFulfillment X cfg st lockId proof now
        = ({ st with locks :=
              (aset st.locks lock.id { lock with status := .expired }) },
           .error .lockExpired)) := by
  unfold verifyFulfillment
  rw [hl]
  dsimp only
  rw [if_neg (by simp [ha])]
  constructor
  · intro hnow
    have hno : ¬ (now > lock.expiresAt) := by omega
    rw [if_neg hno]
    constructor
    · split
      · next e heq =>
          unfold verifyFulfillmentProof at heq
          split at heq
          · cases heq; simp
          · split at heq
            · cases heq; simp
            · cases heq
      · split
        · next e heq => simp [generateSettlementUserOp_error X _ _ e heq]
        · simp
    · intro hT hB hkind
      have hpf : verifyFulfillmentProof proof = .ok () := by
        simp [verifyFulfillmentProof, hT, hB]
      rw [hpf]
      dsimp only
      rcases hkind with hk | hk <;>
        simp [generateSettlementUserOp, encodeTransferCalldata, hk, isOkE]
  · intro hlt
    rw [if_pos hlt]

/-- C8 counterexample: an Active ERC-721 lock at exactly `now = expiresAt`
with a correctly formatted proof does not succeed — `verifyFulfillment`
returns `UnsupportedAssetKind` — refuting the claim's unconditional
"succeeds given a correctly formatted proof". -/
theorem verifyFulfillment_erc721_at_expiry_fails :
    c8Lock.status = .active ∧
    demoProof.transactionHash.length = 66 ∧
    demoProof.blockHash.length = 66 ∧
    (verifyFulfillment demoX DEFAULT_CONFIG c8St c8Lock.id demoProof
        c8Lock.expiresAt).2 = .error .unsupportedAssetKind := by decide

/-- Witness for `verifyFulfillment_expiry_boundary`: the demo native lock
(expiry 1300) is fulfilled successfully at `now = 1300` and fails with
`LockExpired` — expiring the lock as the only state change — at
`now = 1301`. -/
theorem verifyFulfillment_expiry_boundary_witness :
    isOkE (verifyFulfillment demoX DEFAULT_CONFIG demoSt2 demoLockId
        demoProof 1300).2 = true ∧
    verifyFulfillment demoX DEFAULT_CONFIG demoSt2 demoLockId demoProof 1301
      = ({ demoSt2 with locks :=
            (aset demoSt2.locks demoActiveLock.id
              { demoActiveLock with status := .expired }) },
         .error .lockExpired) :=
  ⟨((verifyFulfillment_expiry_boundary demoX DEFAULT_CONFIG demoSt2
      demoLockId demoActiveLock demoProof 1300 (by decide) (by decide)).1
      (by decide)).2 (by decide) (by decide) (Or.inl (by decide)),
   (verifyFulfillment_expiry_boundary demoX DEFAULT_CONFIG demoSt2
      demoLockId demoActiveLock demoProof 1301 (by decide) (by decide)).2
      (by decide)⟩

theorem pending_never_expired_aux (X : ExtCrypto) (cfg : EnclaveConfig)
    (st : CCMState) (op : Op) (lockId : List Char)
    (lock lock' : ResourceLock)
    (hwk : WellKeyed st)
    (hl : alook st.locks lockId = some lock)
    (hp : lock.status = .pending)
    (hl' : alook (step X cfg st op).locks lockId = some lock') :
    lock'.status ≠ .expired := by
  cases op with
  | create req now today =>
    rcases createLock_char X.keccak cfg st req now today with
      ⟨hst, _⟩ | ⟨resp, _, hpend, _, _, hlocks, _, _, _⟩
    · rw [show step X cfg st (.create req now today)
          = (createLock X.keccak cfg st req now today).1 from rfl,
        hst, hl] at hl'
      cases hl'; simp [hp]
    · have hx : alook (aset st.locks resp.lock.id resp.lock) lockId
          = some lock' := by
        rw [← hlocks]; exact hl'
      by_cases hk : resp.lock.id = lockId
      · rw [hk, alook_aset_self] at hx; cases hx; simp [hpend]
      · rw [alook_aset_ne _ _ _ _ hk, hl] at hx; cases hx; simp [hp]
  | sign sId sig now today =>
    rcases signLock_char X cfg st sId sig now today with
      ⟨hst, _⟩ | ⟨lockS, hlS, _, ⟨lock2, h2a, h2l⟩, _, _, _, _⟩
    · rw [show step X cfg st (.sign sId sig now today)
          = (signLock X cfg st sId sig now today).1 from rfl,
        hst, hl] at hl'
      cases hl'; simp [hp]
    · have hx : alook (aset st.locks lockS.id lock2) lockId = some lock' := by
        rw [← h2l]; exact hl'
      by_cases hk : lockS.id = lockId
      · rw [hk, alook_aset_self] at hx; cases hx; simp [h2a]
      · rw [alook_aset_ne _ _ _ _ hk, hl] at hx; cases hx; simp [hp]
  | fulfill fId proof now =>
    rcases verifyFulfillment_char X cfg st fId proof now with
      ⟨hst, _⟩ | ⟨lockF, ns, hlF, hact, _, hlocks, _, _, _, _⟩
    · rw [show step X cfg st (.fulfill fId proof now)
          = (verifyFulfillment X cfg st fId proof now).1 from rfl,
        hst, hl] at hl'
      cases hl'; simp [hp]
    · have hid : lockF.id = fId := hwk fId lockF hlF
      by_cases hk : lockF.id = lockId
      · rw [hid] at hk
        rw [hk, hl] at hlF
        cases hlF
        rw [hp] at hact
        cases hact
      · have hx : alook (aset st.locks lockF.id
            { lockF with status := ns }) lockId = some lock' := by
          rw [← hlocks]; exact hl'
        rw [alook_aset_ne _ _ _ _ hk, hl] at hx; cases hx; simp [hp]
  | cancel cId sig now =>
    rcases cancelLock_char X st cId sig now with
      ⟨hst, _⟩ | ⟨lockC, hlC, _, hlocks, _, _, _⟩
    · rw [show step X cfg st (.cancel cId sig now)
          = (cancelLock X st cId sig now).1 from rfl,
        hst, hl] at hl'
      cases hl'; simp [hp]
    · have hx : alook (aset st.locks cId
          { lockC with status := .cancelled }) lockId = some lock' := by
        rw [← hlocks]; exact hl'
      by_cases hk : cId = lockId
      · rw [hk, alook_aset_self] at hx; cases hx; simp
      · rw [alook_aset_ne _ _ _ _ hk, hl] at hx; cases hx; simp [hp]
  | cleanup now =>
    have hfr := (cleanupExpiredLocks_frames X.keccak st now).2.2 lockId
    rw [show step X cfg st (.cleanup now)
        = (cleanupExpiredLocks X.keccak st now).1 from rfl] at hl'
    rw [hfr, hl] at hl'
    simp only [Option.map_some'] at hl'
    rw [if_neg (by simp [hp])] at hl'
    cases hl'; simp [hp]

/-- C9: `signLock` performs no expiry check — a Pending lock whose
`expiresAt` and 30-second signing window are both long past is still
activated by a validly signed `signLock` — and no operation ever transitions
a Pending lock to Expired (in particular `cleanupExpiredLocks` only
transitions Active locks), assuming the lock map keys every lock by its own
id, as every state the engine builds does. -/
theorem signLock_no_expiry_check :
    (∀ (X : ExtCrypto) (cfg : EnclaveConfig) (st : CCMState)
        (lockId sig : List Char) (now : Nat) (today : String)
        (lock : ResourceLock),
      alook st.locks lockId = some lock →
      lock.status = .pending →
      hexToLower (X.recover
          (hashTypedData X.keccak (lockDomain lock)
            (lockApprovalOf X.keccak lock)) sig)
        = hexToLower lock.owner →
      lock.expiresAt < now →
      lock.lockedAt + 30 < now →
      isOkE (signLock X cfg st lockId sig now today).2 = true ∧
      (alook (signLock X cfg st lockId sig now today).1.locks lock.id).map
          (·.status) = some .active) ∧
    (∀ (X : ExtCrypto) (cfg : EnclaveConfig) (st : CCMState) (op : Op)
        (lockId : List Char) (lock lock' : ResourceLock),
      WellKeyed st →
      alook st.locks lockId = some lock →
      lock.status = .pending →
      alook (step X cfg st op).locks lockId = some lock' →
      lock'.status ≠ .expired) := by
  constructor
  · intro X cfg st lockId sig now today lock hl hp hsig _hexp _hwin
    unfold signLock
    rw [hl]
    dsimp only
    rw [if_neg (by simp [hp]), if_neg (by simp [hsig])]
    exact ⟨rfl, by rw [alook_aset_self]; rfl⟩
  · exact fun X cfg st op lockId lock lock' hwk hl hp hl' =>
      pending_never_expired_aux X cfg st op lockId lock lock' hwk hl hp hl'

theorem c9St_wellKeyed : WellKeyed c9St := by
  intro k l h
  simp only [c9St, alook] at h
  split at h
  · next hk => cases h; exact hk
  · cases h

/-- Witness for `signLock_no_expiry_check`: at `now = 999999`, far past both
the expiry 1300 and the window 1030, a validly signed `signLock` still
activates `c9Lock`; and `cleanupExpiredLocks` at that time leaves the
Pending `c9Lock` unexpired. -/
theorem signLock_no_expiry_check_witness :
    (isOkE (signLock demoX DEFAULT_CONFIG c9St c9Lock.id
        (List.replicate 130 '5') 999999 "2026-02-03").2 = true ∧
      (alook (signLock demoX DEFAULT_CONFIG c9St c9Lock.id
          (List.replicate 130 '5') 999999 "2026-02-03").1.locks
          c9Lock.id).map (·.status) = some .active) ∧
    ((alook (step demoX DEFAULT_CONFIG c9St (.cleanup 999999)).locks
        c9Lock.id).getD c8Lock).status ≠ .expired :=
  ⟨signLock_no_expiry_check.1 demoX DEFAULT_CONFIG c9St c9Lock.id
      (List.replicate 130 '5') 999999 "2026-02-03" c9Lock
      (by decide) (by decide) (by decide) (by decide) (by decide),
   signLock_no_expiry_check.2 demoX DEFAULT_CONFIG c9St (.cleanup 999999)
      c9Lock.id c9Lock _ c9St_wellKeyed (by decide) (by decide) (by decide)⟩

/-- C10: the per-date daily-volume counters never decrease under any
operation; `createLock`, `cancelLock`, `verifyFulfillment` and
`cleanupExpiredLocks` leave the counter map exactly unchanged; and a
successful `signLock` adds exactly the activated lock's amount to today's
counter.  (So amounts of later cancelled or expired locks permanently count
against `maxDailyVolume` for their activation date.) -/
theorem daily_volume_monotone :
    (∀ (X : ExtCrypto) (cfg : EnclaveConfig) (st : CCMState) (op : Op)
        (d : String),
      (alook st.dailyVolume d).getD 0
        ≤ (alook (step X cfg st op).dailyVolume d).getD 0) ∧
    (∀ (X : ExtCrypto) (st : CCMState) (lockId sig : List Char) (now : Nat),
      (cancelLock X st lockId sig now).1.dailyVolume = st.dailyVolume) ∧
    (∀ (X : ExtCrypto) (cfg : EnclaveConfig) (st : CCMState)
        (lockId : List Char) (proof : FulfillmentProof) (now : Nat),
      (verifyFulfillment X cfg st lockId proof now).1.dailyVolume
        = st.dailyVolume) ∧
    (∀ (keccak : List Char → List Char) (st : CCMState) (now : Nat),
      (cleanupExpiredLocks keccak st now).1.dailyVolume = st.dailyVolume) ∧
    (∀ (keccak : List Char → List Char) (cfg : EnclaveConfig)
        (st : CCMState) (req : CreateLockRequest) (now : Nat)
        (today : String),
      (createLock keccak cfg st req now today).1.dailyVolume
        = st.dailyVolume) ∧
    (∀ (X : ExtCrypto) (cfg : EnclaveConfig) (st : CCMState)
        (lockId sig : List Char) (now : Nat) (today : String)
        (lock : ResourceLock),
      alook st.locks lockId = some lock →
      isOkE (signLock X cfg st lockId sig now today).2 = true →
      (signLock X cfg st lockId sig now today).1.dailyVolume
        = aset st.dailyVolume today
            ((alook st.dailyVolume today).getD 0 + lock.amount)) := by
  refine ⟨?_, ?_, ?_, ?_, ?_, ?_⟩
  · intro X cfg st op d
    cases op with
    | create req now today =>
      have hv : (step X cfg st (.create req now today)).dailyVolume
          = st.dailyVolume := by
        rcases createLock_char X.keccak cfg st req now today with
          ⟨hst, _⟩ | ⟨_, _, _, _, _, _, hvol, _, _⟩
        · rw [show step X cfg st (.create req now today)
              = (createLock X.keccak cfg st req now today).1 from rfl, hst]
        · exact hvol
      rw [hv]
    | sign sId sig now today =>
      rcases signLock_char X cfg st sId sig now today with
        ⟨hst, _⟩ | ⟨lockS, _, _, _, _, _, hvol, _⟩
      · rw [show step X cfg st (.sign sId sig now today)
            = (signLock X cfg st sId sig now today).1 from rfl, hst]
      · rw [show step X cfg st (.sign sId sig now today)
            = (signLock X cfg st sId sig now today).1 from rfl, hvol]
        by_cases hd : today = d
        · subst hd
          rw [alook_aset_self]
          simp only [Option.getD_some]
          exact Nat.le_add_right _ _
        · rw [alook_aset_ne _ _ _ _ hd]
    | fulfill fId proof now =>
      have hv : (step X cfg st (.fulfill fId proof now)).dailyVolume
          = st.dailyVolume := by
        rcases verifyFulfillment_char X cfg st fId proof now with
          ⟨hst, _⟩ | ⟨_, _, _, _, _, _, _, _, hvol, _⟩
        · rw [show step X cfg st (.fulfill fId proof now)
              = (verifyFulfillment X cfg st fId proof now).1 from rfl, hst]
        · exact hvol
      rw [hv]
    | cancel cId sig now =>
      have hv : (step X cfg st (.cancel cId sig now)).dailyVolume
          = st.dailyVolume := by
        rcases cancelLock_char X st cId sig now with
          ⟨hst, _⟩ | ⟨_, _, _, _, _, hvol, _⟩
        · rw [show step X cfg st (.cancel cId sig now)
              = (cancelLock X st cId sig now).1 from rfl, hst]
        · exact hvol
      rw [hv]
    | cleanup now =>
      rw [show step X cfg st (.cleanup now)
          = (cleanupExpiredLocks X.keccak st now).1 from rfl,
        (cleanupExpiredLocks_frames X.keccak st now).2.1]
  · intro X st lockId sig now
    rcases cancelLock_char X st lockId sig now with
      ⟨hst, _⟩ | ⟨_, _, _, _, _, hvol, _⟩
    · rw [hst]
    · exact hvol
  · intro X cfg st lockId proof now
    rcases verifyFulfillment_char X cfg st lockId proof now with
      ⟨hst, _⟩ | ⟨_, _, _, _, _, _, _, _, hvol, _⟩
    · rw [hst]
    · exact hvol
  · intro keccak st now
    exact (cleanupExpiredLocks_frames keccak st now).2.1
  · intro keccak cfg st req now today
    rcases createLock_char keccak cfg st req now today with
      ⟨hst, _⟩ | ⟨_, _, _, _, _, _, hvol, _, _⟩
    · rw [hst]
    · exact hvol
  · intro X cfg st lockId sig now today lock hl hok
    rcases signLock_char X cfg st lockId sig now today with
      ⟨_, e, herr⟩ | ⟨lockS, hlS, _, _, _, _, hvol, _⟩
    · rw [herr] at hok; simp [isOkE] at hok
    · rw [hl] at hlS; cases hlS
      exact hvol

/-- Witness for `daily_volume_monotone`: the successful demo `signLock`
adds exactly the demo lock's amount (1000) to the 2026-02-03 counter. -/
theorem daily_volume_monotone_witness :
    (signLock demoX DEFAULT_CONFIG demoSt1 demoLockId
        (List.replicate 130 '5') 1010 "2026-02-03").1.dailyVolume
      = aset demoSt1.dailyVolume "2026-02-03"
          ((alook demoSt1.dailyVolume "2026-02-03").getD 0
            + demoPendingLock.amount) :=
  daily_volume_monotone.2.2.2.2.2 demoX DEFAULT_CONFIG demoSt1 demoLockId
    (List.replicate 130 '5') 1010 "2026-02-03" demoPendingLock
    (by decide) (by decide)
